import Mathlib

/-!
# Verification of the `config` configuration-value resolution library

Shallow embedding of the Go package `config` (files `config.go` and the
lazy-variant revision of the same package) into Lean 4, together with
theorems settling the specification claims.

Modelling conventions:
* Go `*string` candidates are `Option String` (`nil` ↦ `none`).
* The mutable `Config` receiver is threaded explicitly: a Go method that
  may append to `c.Errors`/`c.Warnings` becomes a function returning the
  result together with the updated `Config`.
* Errors are an inductive type `GoError` mirroring the distinct
  `fmt.Errorf` call sites.
* `float64` arithmetic inside parsing is modelled exactly:
  `strconv.ParseFloat` of a decimal literal yields its exact decimal value
  `m * 10^e` (type `Dec`), and the `float32` narrowing in `ResolveInt` is
  modelled as exact. The conversion `int64(v)` truncates toward zero, as
  in Go.
* `strconv.ParseInt(s, 0, 64)` is modelled including sign handling, the
  `0b`/`0o`/`0x` and leading-`0` octal detection of base 0, and the
  64-bit range check; digit-group underscores and the textual forms
  `inf`/`NaN`/hex floats of `ParseFloat` are not modelled (no claim
  involves them).
* `strings.EqualFold` / `strings.TrimSpace` are modelled by ASCII
  lower-casing and ASCII whitespace trimming; the claims only exercise
  ASCII inputs.
* A parsed `toml.Tree` is modelled as an association list from keys to
  native scalar values; `Has`/`Get` become a single lookup.
* `strconv.FormatFloat(v, 'f', -1, 64)` output is abstracted: the
  `float64` constructor of `GoValue` carries its rendered decimal text.
-/

set_option autoImplicit false

namespace ConfigGo

/-- Errors appended to `Config.Errors` / `Config.Warnings`; one constructor
per distinct `fmt.Errorf` call site (plus OS/parser failures, which arrive
as opaque messages). -/
inductive GoError where
  /-- `"missing default <typeName> value"` from the resolvers. -/
  | missingDefault (typeName : String)
  /-- `"unrecognized numeric value '<text>': %w"` from `ResolveInt` / `ResolveFloat64`. -/
  | unrecognizedNumeric (text : String)
  /-- `"unrecognized bool value <text>"` from `ResolveBool`. -/
  | unrecognizedBool (text : String)
  /-- `"unexpected data type %T"` from `toString`. -/
  | unexpectedDataType (typeName : String)
  /-- An error returned by an OS call (`os.Executable`, `os.UserConfigDir`, `os.Open`, ...). -/
  | osError (msg : String)
  /-- An error returned by the TOML parser (`toml.LoadReader`). -/
  | parseError (msg : String)
  /-- An error returned by `File.Close`. -/
  | closeError (msg : String)
  /-- `"can't <stage> TOML preference file <filename>: %w"` from `tomlError`. -/
  | tomlStageError (stage : String) (filename : String) (msg : String)
  deriving DecidableEq, Repr

/-- A Go `interface{}` scalar as produced by the TOML parser or passed to
`Default`. `gFloat64` carries the decimal text that
`strconv.FormatFloat(v, 'f', -1, 64)` renders for the value (the IEEE-754
payload itself is never inspected by the library). `gOther` stands for any
dynamic type outside the switch cases and carries its `%T` name. -/
inductive GoValue where
  | gNil
  | gInt64 (n : Int)
  | gInt (n : Int)
  | gBool (b : Bool)
  | gFloat64 (rendered : String)
  | gString (s : String)
  | gOther (typeName : String)
  deriving DecidableEq, Repr

/-- The `Basis` enum selecting where the config file is searched. -/
inductive Basis where
  | relativeToUser
  | relativeToExecutable
  deriving DecidableEq, Repr

/-- The `Config` struct. Fields merge the two revisions of the package:
the eager revision has no `loadAttempted`/`Warnings`/`PrefsFile` and its
functions never touch them. `fileData *toml.Tree` becomes an optional
association list. -/
structure Config where
  AppName : String
  FileBase : String
  Location : Basis
  fileData : Option (List (String × GoValue))
  loadAttempted : Bool
  PrefsFile : String
  Errors : List GoError
  Warnings : List GoError
  TrueStrings : List String
  FalseStrings : List String
  deriving DecidableEq, Repr

/-- `New` constructs a `Config`; unset Go fields take their zero values. -/
def New (appname : String) : Config :=
  { AppName := appname
    FileBase := "config"
    Location := .relativeToUser
    fileData := none
    loadAttempted := false
    PrefsFile := ""
    Errors := []
    Warnings := []
    TrueStrings := ["true"]
    FalseStrings := ["false"] }

/-- Append one error to `Config.Errors` (`c.Errors = append(c.Errors, e)`). -/
def addError (c : Config) (e : GoError) : Config :=
  { c with Errors := c.Errors ++ [e] }

/-- Append one error to `Config.Warnings`. -/
def addWarning (c : Config) (e : GoError) : Config :=
  { c with Warnings := c.Warnings ++ [e] }

/-! ## `strconv` parsing, modelled -/

/-- Value of one digit character in bases up to 36, as in `strconv`. -/
def digitVal (ch : Char) : Option Nat :=
  if '0' ≤ ch ∧ ch ≤ '9' then some (ch.toNat - '0'.toNat)
  else if 'a' ≤ ch ∧ ch ≤ 'z' then some (ch.toNat - 'a'.toNat + 10)
  else if 'A' ≤ ch ∧ ch ≤ 'Z' then some (ch.toNat - 'A'.toNat + 10)
  else none

/-- Accumulate a digit string in the given base; any character that is not
a digit of the base is a syntax error. An empty list yields `0`, matching
the `ParseUint` digit loop (reachable only on the leading-`0` octal path,
where `"0"` parses to `0`). -/
def parseDigits (base : Nat) : List Char → Nat → Option Nat
  | [], acc => some acc
  | ch :: rest, acc =>
    match digitVal ch with
    | some d => if d < base then parseDigits base rest (acc * base + d) else none
    | none => none

/-- `strconv.ParseUint(s, 0, _)` without the range check: base detection
for the `0b`/`0o`/`0x` forms (which require at least one digit after the
two-character form, i.e. total length ≥ 3) and the leading-`0` octal
fallback; otherwise base 10. -/
def goParseUint : List Char → Option Nat
  | [] => none
  | ['0'] => some 0
  | '0' :: ch :: rest =>
    if (ch = 'b' ∨ ch = 'B') ∧ rest ≠ [] then parseDigits 2 rest 0
    else if (ch = 'o' ∨ ch = 'O') ∧ rest ≠ [] then parseDigits 8 rest 0
    else if (ch = 'x' ∨ ch = 'X') ∧ rest ≠ [] then parseDigits 16 rest 0
    else parseDigits 8 (ch :: rest) 0
  | l => parseDigits 10 l 0

/-- `strconv.ParseInt(s, 0, 64)`: optional sign, then `goParseUint`, then
the signed 64-bit range check (`ParseUint`'s own 64-bit overflow check is
subsumed: any out-of-range magnitude is an error either way, and
`ResolveInt` only inspects whether an error occurred). -/
def goParseInt (s : String) : Option Int :=
  match s.toList with
  | '+' :: rest =>
    (goParseUint rest).bind fun n =>
      if n ≤ 2 ^ 63 - 1 then some (n : Int) else none
  | '-' :: rest =>
    (goParseUint rest).bind fun n =>
      if n ≤ 2 ^ 63 then some (-(n : Int)) else none
  | l =>
    (goParseUint l).bind fun n =>
      if n ≤ 2 ^ 63 - 1 then some (n : Int) else none

/-- Is `ch` an ASCII decimal digit? -/
def isDigitCh (ch : Char) : Bool :=
  '0' ≤ ch && ch ≤ '9'

/-- Numeric value of a decimal digit string. -/
def natOfDigits (l : List Char) : Nat :=
  l.foldl (fun acc ch => acc * 10 + (ch.toNat - '0'.toNat)) 0

/-- An exact decimal number `m * 10^e`, the value `strconv.ParseFloat`
computes before IEEE-754 rounding. The claims never depend on the
rounding step, so the parsed value is kept exact. -/
structure Dec where
  m : Int
  e : Int
  deriving DecidableEq, Repr

/-- The rational value of a `Dec`. -/
def Dec.toRat (d : Dec) : Rat :=
  if 0 ≤ d.e then (d.m : Rat) * (10 : Rat) ^ d.e.toNat
  else (d.m : Rat) / (10 : Rat) ^ (-d.e).toNat

/-- Parse the exponent part after `e`/`E`: optional sign then a nonempty
digit string, consuming the whole remainder. -/
def parseExponent : List Char → Option Int
  | '+' :: rest =>
    if rest ≠ [] ∧ rest.all isDigitCh then some (natOfDigits rest : Int) else none
  | '-' :: rest =>
    if rest ≠ [] ∧ rest.all isDigitCh then some (-(natOfDigits rest : Int)) else none
  | rest =>
    if rest ≠ [] ∧ rest.all isDigitCh then some (natOfDigits rest : Int) else none

/-- Mantissa and optional exponent: digits, optional `.` plus digits
(at least one digit in the mantissa overall), optional exponent part.
Returns the exact decimal value. -/
def parseMantissa (l : List Char) : Option Dec :=
  let ip := l.takeWhile isDigitCh
  let rest := l.dropWhile isDigitCh
  let (fp, rest2) :=
    match rest with
    | '.' :: r => (r.takeWhile isDigitCh, r.dropWhile isDigitCh)
    | _ => ([], rest)
  if ip = [] ∧ fp = [] then none
  else
    let base : Dec := ⟨(natOfDigits (ip ++ fp) : Int), -(fp.length : Int)⟩
    match rest2 with
    | [] => some base
    | 'e' :: r2 => (parseExponent r2).map fun e => ⟨base.m, base.e + e⟩
    | 'E' :: r2 => (parseExponent r2).map fun e => ⟨base.m, base.e + e⟩
    | _ => none

/-- `strconv.ParseFloat(s, _)` on decimal literals, with exact-decimal
semantics: optional sign, decimal mantissa, optional decimal exponent.
(`inf`/`NaN`, hex floats and underscores are outside every claim.) -/
def goParseFloat (s : String) : Option Dec :=
  match s.toList with
  | '+' :: rest => parseMantissa rest
  | '-' :: rest => (parseMantissa rest).map fun d => ⟨-d.m, d.e⟩
  | l => parseMantissa l

/-- Go's float-to-integer conversion `int64(v)`: truncation toward zero
(`Int.tdiv` is T-division). -/
def truncToInt (d : Dec) : Int :=
  if 0 ≤ d.e then d.m * ((10 : Int) ^ d.e.toNat)
  else Int.tdiv d.m ((10 : Int) ^ (-d.e).toNat)

/-! ## Value resolution -/

/-- `ResolveString` (identical in both revisions): return the first
non-`nil` candidate; if none, append `"missing default string value"` and
return `""`. -/
def ResolveString : Config → List (Option String) → String × Config
  | c, [] => ("", addError c (.missingDefault "string"))
  | c, none :: rest => ResolveString c rest
  | c, some s :: _ => (s, c)

/-- The numeric coercion step inside `ResolveInt`: if the text contains a
`.`, `strconv.ParseFloat` then `int64(float32(tv))` (the narrowing is
modelled as exact, the final conversion truncates toward zero); otherwise
`strconv.ParseInt(s, 0, 64)`. `none` is the `err != nil` branch. -/
def coerceInt (s : String) : Option Int :=
  if s.toList.contains '.' then (goParseFloat s).map truncToInt
  else goParseInt s

/-- `ResolveInt` (both revisions; they differ only in the `bitSize`
argument of `ParseFloat`, which the exact-rational model absorbs): skip
`nil` and empty-string candidates; on a parse failure append
`"unrecognized numeric value"` and continue with the next candidate; on
success return the value; if the list is exhausted append
`"missing default int value"` and return `0`. -/
def ResolveInt : Config → List (Option String) → Int × Config
  | c, [] => (0, addError c (.missingDefault "int"))
  | c, none :: rest => ResolveInt c rest
  | c, some s :: rest =>
    if s = "" then ResolveInt c rest
    else
      match coerceInt s with
      | some v => (v, c)
      | none => ResolveInt (addError c (.unrecognizedNumeric s)) rest

/-- `ResolveFloat64` (eager revision only): skip `nil` and empty-string
candidates; on a parse failure append `"unrecognized numeric value"` and
continue; on success return the value; if exhausted append the (verbatim)
`"missing default int value"` error and return `0.0`. -/
def ResolveFloat64 : Config → List (Option String) → Dec × Config
  | c, [] => (⟨0, 0⟩, addError c (.missingDefault "int"))
  | c, none :: rest => ResolveFloat64 c rest
  | c, some s :: rest =>
    if s = "" then ResolveFloat64 c rest
    else
      match goParseFloat s with
      | some v => (v, c)
      | none => ResolveFloat64 (addError c (.unrecognizedNumeric s)) rest

/-- ASCII case folding of one character, as its codepoint. -/
def foldNat (ch : Char) : Nat :=
  if 'A' ≤ ch ∧ ch ≤ 'Z' then ch.toNat + 32 else ch.toNat

/-- `strings.EqualFold`, restricted to ASCII case folding (every claim
input is ASCII). -/
def eqFold (a b : List Char) : Bool :=
  a.map foldNat == b.map foldNat

/-- Is `ch` one of the white-space characters `unicode.IsSpace` accepts
in Latin-1 (`'\t'`, `'\n'`, vertical tab, form feed, `'\r'`, `' '`,
U+0085, U+00A0)? -/
def isSpaceCh (ch : Char) : Bool :=
  ch.toNat = 9 ∨ ch.toNat = 10 ∨ ch.toNat = 11 ∨ ch.toNat = 12 ∨
  ch.toNat = 13 ∨ ch.toNat = 32 ∨ ch.toNat = 133 ∨ ch.toNat = 160

/-- `strings.TrimSpace`: drop white space from both ends. -/
def trimSpace (l : List Char) : List Char :=
  ((l.dropWhile isSpaceCh).reverse.dropWhile isSpaceCh).reverse

/-- `stringToBool`: trim surrounding whitespace, compare case-insensitively
first against `TrueStrings` and then against `FalseStrings`; first match
wins; no match is `(false, false)`. It only reads `c` and never appends an
error. -/
def stringToBool (c : Config) (bs : String) : Bool × Bool :=
  let tbs := trimSpace bs.toList
  if c.TrueStrings.any fun ts => eqFold tbs ts.toList then (true, true)
  else if c.FalseStrings.any fun ts => eqFold tbs ts.toList then (false, true)
  else (false, false)

/-- `ResolveBool`: skip `nil` and empty-string candidates; at the first
remaining candidate call `stringToBool` and return its boolean whether or
not it matched (appending `"unrecognized bool value"` when it did not —
the walk stops either way); if exhausted append
`"missing default bool value"` and return `false`. -/
def ResolveBool : Config → List (Option String) → Bool × Config
  | c, [] => (false, addError c (.missingDefault "bool"))
  | c, none :: rest => ResolveBool c rest
  | c, some s :: rest =>
    if s = "" then ResolveBool c rest
    else
      match stringToBool c s with
      | (b, true) => (b, c)
      | (b, false) => (b, addError c (.unrecognizedBool s))

/-! ## Type coercion to text and candidate providers -/

/-- `toString`: convert an `int64`, `int`, `bool`, `float64` or `string`
to text; anything else appends `"unexpected data type"` and yields `""`.
(A `nil` interface value matches no case of the Go type switch and takes
the same error path, with `%T` printing `<nil>`.) -/
def Config.toString (c : Config) (x : GoValue) : String × Config :=
  match x with
  | .gInt64 n => (Int.repr n, c)
  | .gInt n => (Int.repr n, c)
  | .gBool b => (if b then "true" else "false", c)
  | .gFloat64 rendered => (rendered, c)
  | .gString s => (s, c)
  | .gNil => ("", addError c (.unexpectedDataType "<nil>"))
  | .gOther typeName => ("", addError c (.unexpectedDataType typeName))

/-- `Default`: wrap a literal `bool`, `int` or `string` as a present
candidate via its canonical text; `nil` and every other dynamic type
yield `nil` with no error appended. (`int64` and `float64` are not cases
of the switch and fall to `default`.) -/
def Default (c : Config) (x : GoValue) : Option String × Config :=
  match x with
  | .gBool b => (some (if b then "true" else "false"), c)
  | .gInt n => (some (Int.repr n), c)
  | .gString s => (some s, c)
  | _ => (none, c)

/-- `FromFile` (eager revision): `nil` tree resolves to absent; otherwise
`Has`/`Get` (one association-list lookup) and `toString` of the native
value, returned as a present candidate. -/
def FromFile (c : Config) (key : String) : Option String × Config :=
  match c.fileData with
  | none => (none, c)
  | some tree =>
    match List.lookup key tree with
    | none => (none, c)
    | some v =>
      let (x, c2) := Config.toString c v
      (some x, c2)

/-! ## The lazy revision: at-most-once backing-file load

The filesystem, the OS path queries and the TOML parser are external
capabilities; they are modelled as an oracle `FS` fixing the outcome of
each call. `loadTOML` and `lazyFromFile` additionally report how many
times `os.Open` and `toml.LoadReader` were invoked, to state the
"touched at most once" property. -/

/-- Outcomes of the external calls made by the lazy loader. -/
structure FS where
  /-- Outcome of `prefsFileName()` (`os.Executable` / `os.UserConfigDir`
  plus path joining). -/
  prefsName : Except GoError String
  /-- Outcome of `os.Open` on a given path. -/
  openFile : String → Except GoError Unit
  /-- Outcome of `toml.LoadReader` on the opened file. -/
  parseFile : String → Except GoError (List (String × GoValue))
  /-- Outcome of the deferred `pf.Close()`: `some e` if closing failed. -/
  closeOutcome : String → Option GoError

/-- The deferred `pf.Close()`: a failure is appended to `Errors`. -/
def goClose (fs : FS) (pfile : String) (c : Config) : Config :=
  match fs.closeOutcome pfile with
  | some e => addError c e
  | none => c

/-- `tomlError`: wrap a TOML-related failure; the `"locate"` stage goes to
`Warnings`, every other stage to `Errors`. -/
def tomlError (c : Config) (filename : String) (stage : String) (msg : String) : Config :=
  if stage = "locate" then addWarning c (.tomlStageError stage filename msg)
  else addError c (.tomlStageError stage filename msg)

/-- `loadTOML`: if a load was already attempted, return immediately;
otherwise set `loadAttempted`, resolve the path (failure → `Errors`),
open the file (failure → `Warnings`), parse it (failure → `Errors`), and
on success store the tree and the path; the deferred close runs on both
post-open exit paths. The two counters report the number of `os.Open`
and of `toml.LoadReader` calls performed. -/
def loadTOML (fs : FS) (c : Config) : Config × Nat × Nat :=
  if c.loadAttempted then (c, 0, 0)
  else
    let c1 := { c with loadAttempted := true }
    match fs.prefsName with
    | .error e => (addError c1 e, 0, 0)
    | .ok pfile =>
      match fs.openFile pfile with
      | .error e => (addWarning c1 e, 1, 0)
      | .ok _ =>
        match fs.parseFile pfile with
        | .error e => (goClose fs pfile (addError c1 e), 1, 1)
        | .ok tree =>
          (goClose fs pfile { c1 with fileData := some tree, PrefsFile := pfile }, 1, 1)

/-- `FromFile` of the lazy revision: trigger `loadTOML`, then look the key
up exactly as the eager `FromFile` does. The counters are those of the
embedded `loadTOML` call. -/
def lazyFromFile (fs : FS) (c : Config) (key : String) :
    Option String × Config × Nat × Nat :=
  let (c1, opens, parses) := loadTOML fs c
  match c1.fileData with
  | none => (none, c1, opens, parses)
  | some tree =>
    match List.lookup key tree with
    | none => (none, c1, opens, parses)
    | some v =>
      let (x, c2) := Config.toString c1 v
      (some x, c2, opens, parses)

/-! ## Concrete fixtures used by witnesses and counterexamples -/

/-- A filesystem oracle on which every external call succeeds. -/
def fsOk : FS :=
  { prefsName := .ok "p"
    openFile := fun _ => .ok ()
    parseFile := fun _ => .ok [("alpha", .gString "Some string"), ("beta", .gInt64 42)]
    closeOutcome := fun _ => none }

/-- A filesystem oracle on which `os.Open` fails. -/
def fsOpenFail : FS :=
  { prefsName := .ok "p"
    openFile := fun _ => .error (.osError "open p: no such file or directory")
    parseFile := fun _ => .error (.parseError "unreachable")
    closeOutcome := fun _ => none }

/-- A filesystem oracle on which the parse and the deferred close both
fail. -/
def fsParseCloseFail : FS :=
  { prefsName := .ok "p"
    openFile := fun _ => .ok ()
    parseFile := fun _ => .error (.parseError "bad toml")
    closeOutcome := fun _ => some (.closeError "close failed") }

/-- A filesystem oracle on which everything succeeds except the deferred
close. -/
def fsCloseFail : FS :=
  { prefsName := .ok "p"
    openFile := fun _ => .ok ()
    parseFile := fun _ => .ok [("alpha", .gString "v")]
    closeOutcome := fun _ => some (.closeError "close failed") }

/-- A context on which a load has already been attempted (and failed:
no backing structure). -/
def cAttempted : Config :=
  { New "app" with loadAttempted := true }

/-- A context whose backing file carries a value of unsupported dynamic
type under key `"k"`. -/
def cBadTree : Config :=
  { New "app" with fileData := some [("k", .gOther "time.Time")] }

end ConfigGo

/-! # Theorems -/

namespace ConfigGo

/-! ## Helper lemmas -/

/-- `ResolveInt` only ever appends to the error list. -/
theorem resolveInt_errors_extend (l : List (Option String)) :
    ∀ c : Config, ∃ t, (ResolveInt c l).2.Errors = c.Errors ++ t := by
  induction l with
  | nil => exact fun c => ⟨[.missingDefault "int"], rfl⟩
  | cons hd rest ih =>
    intro c
    match hd with
    | none => simpa [ResolveInt] using ih c
    | some s =>
      by_cases hs : s = ""
      · simpa [ResolveInt, hs] using ih c
      · rcases hv : coerceInt s with _ | v
        · obtain ⟨t, ht⟩ := ih (addError c (.unrecognizedNumeric s))
          exact ⟨.unrecognizedNumeric s :: t, by
            simp [ResolveInt, hs, hv, addError] at ht ⊢
            simpa using ht⟩
        · exact ⟨[], by simp [ResolveInt, hs, hv]⟩

/-- `ResolveFloat64` only ever appends to the error list. -/
theorem resolveFloat_errors_extend (l : List (Option String)) :
    ∀ c : Config, ∃ t, (ResolveFloat64 c l).2.Errors = c.Errors ++ t := by
  induction l with
  | nil => exact fun c => ⟨[.missingDefault "int"], rfl⟩
  | cons hd rest ih =>
    intro c
    match hd with
    | none => simpa [ResolveFloat64] using ih c
    | some s =>
      by_cases hs : s = ""
      · simpa [ResolveFloat64, hs] using ih c
      · rcases hv : goParseFloat s with _ | v
        · obtain ⟨t, ht⟩ := ih (addError c (.unrecognizedNumeric s))
          exact ⟨.unrecognizedNumeric s :: t, by
            simp [ResolveFloat64, hs, hv, addError] at ht ⊢
            simpa using ht⟩
        · exact ⟨[], by simp [ResolveFloat64, hs, hv]⟩

/-- On an all-absent candidate list every resolver returns its zero value
and appends exactly its "missing default" error. -/
theorem all_absent_aux (l : List (Option String)) :
    ∀ c : Config, (∀ x ∈ l, x = none) →
    ResolveString c l = ("", addError c (.missingDefault "string")) ∧
    ResolveInt c l = (0, addError c (.missingDefault "int")) ∧
    ResolveFloat64 c l = (⟨0, 0⟩, addError c (.missingDefault "int")) ∧
    ResolveBool c l = (false, addError c (.missingDefault "bool")) := by
  induction l with
  | nil => exact fun c _ => ⟨rfl, rfl, rfl, rfl⟩
  | cons hd rest ih =>
    intro c hall
    have hhd : hd = none := hall hd (List.mem_cons_self hd rest)
    subst hhd
    have h' : ∀ x ∈ rest, x = none := fun x hx => hall x (List.mem_cons_of_mem none hx)
    simpa [ResolveString, ResolveInt, ResolveFloat64, ResolveBool] using ih c h'

/-- A trimmed text matching neither vocabulary yields `(false, false)`. -/
theorem stringToBool_no_match (c : Config) (s : String)
    (hb : (stringToBool c s).2 = false) : stringToBool c s = (false, false) := by
  by_cases h1 : ∃ x ∈ c.TrueStrings, eqFold (trimSpace s.data) x.data = true
  · simp [stringToBool, h1] at hb
  · by_cases h2 : ∃ x ∈ c.FalseStrings, eqFold (trimSpace s.data) x.data = true
    · simp [stringToBool, h1, h2] at hb
    · simp [stringToBool, h1, h2]

/-- `goClose` does not change `loadAttempted` or `fileData`. -/
theorem goClose_preserves (fs : FS) (p : String) (c : Config) :
    (goClose fs p c).loadAttempted = c.loadAttempted ∧
    (goClose fs p c).fileData = c.fileData := by
  unfold goClose
  cases fs.closeOutcome p <;> simp [addError]

/-- `toString` does not change `loadAttempted`. -/
theorem toString_preserves_loadAttempted (c : Config) (v : GoValue) :
    (Config.toString c v).2.loadAttempted = c.loadAttempted := by
  cases v <;> simp [Config.toString, addError]

/-- After `loadTOML`, a load has always been attempted. -/
theorem loadTOML_attempted (fs : FS) (c : Config) :
    (loadTOML fs c).1.loadAttempted = true := by
  unfold loadTOML
  split
  · simp_all
  · split
    · simp [addError]
    · split
      · simp [addWarning]
      · split
        · simp [(goClose_preserves _ _ _).1, addError]
        · simp [(goClose_preserves _ _ _).1]

/-- A `loadTOML` call performs at most one `os.Open` and at most one
parse. -/
theorem loadTOML_counters (fs : FS) (c : Config) :
    (loadTOML fs c).2.1 ≤ 1 ∧ (loadTOML fs c).2.2 ≤ 1 := by
  unfold loadTOML
  split
  · simp
  · split
    · simp
    · split
      · simp
      · split <;> simp

/-- If a load was already attempted, `loadTOML` is the identity and
touches nothing. -/
theorem loadTOML_already_attempted (fs : FS) (c : Config)
    (h : c.loadAttempted = true) : loadTOML fs c = (c, 0, 0) := by
  simp [loadTOML, h]

/-! ## Claim theorems -/

/-- Claim C3: calling any resolver with an empty candidate list or a list
whose entries are all absent returns the target type's zero value
(`""`, `0`, `0.0`, `false`) and appends exactly one "missing default"
error to the context's error list. -/
theorem resolve_all_absent (c : Config) (l : List (Option String))
    (h : ∀ x ∈ l, x = none) :
    ResolveString c l = ("", addError c (.missingDefault "string")) ∧
    ResolveInt c l = (0, addError c (.missingDefault "int")) ∧
    ResolveFloat64 c l = (⟨0, 0⟩, addError c (.missingDefault "int")) ∧
    ResolveBool c l = (false, addError c (.missingDefault "bool")) := by
  induction l with
  | nil => exact ⟨rfl, rfl, rfl, rfl⟩
  | cons hd rest ih =>
    have hhd : hd = none := h hd (List.mem_cons_self hd rest)
    subst hhd
    have h' : ∀ x ∈ rest, x = none := fun x hx => h x (List.mem_cons_of_mem none hx)
    simpa [ResolveString, ResolveInt, ResolveFloat64, ResolveBool] using ih h'

/-- Claim C3 witness: both hypothesis and conclusion at the all-absent
list `[none, none]`. -/
theorem resolve_all_absent_wit :
    (∀ x ∈ ([none, none] : List (Option String)), x = none) ∧
    (ResolveString (New "app") [none, none] =
      ("", addError (New "app") (.missingDefault "string")) ∧
     ResolveInt (New "app") [none, none] =
      (0, addError (New "app") (.missingDefault "int")) ∧
     ResolveFloat64 (New "app") [none, none] =
      (⟨0, 0⟩, addError (New "app") (.missingDefault "int")) ∧
     ResolveBool (New "app") [none, none] =
      (false, addError (New "app") (.missingDefault "bool"))) :=
  ⟨by decide, resolve_all_absent (New "app") [none, none] (by decide)⟩

/-- Claim C10: a present empty-string candidate is skipped by
`ResolveInt`, `ResolveFloat64` and `ResolveBool` exactly as if it were
absent (the walk continues), while `ResolveString` returns it as the
resolved value with no error appended. -/
theorem empty_text_skipped (c : Config) (rest : List (Option String)) :
    ResolveInt c (some "" :: rest) = ResolveInt c (none :: rest) ∧
    ResolveFloat64 c (some "" :: rest) = ResolveFloat64 c (none :: rest) ∧
    ResolveBool c (some "" :: rest) = ResolveBool c (none :: rest) ∧
    ResolveInt c (some "" :: rest) = ResolveInt c rest ∧
    ResolveFloat64 c (some "" :: rest) = ResolveFloat64 c rest ∧
    ResolveBool c (some "" :: rest) = ResolveBool c rest ∧
    ResolveString c (some "" :: rest) = ("", c) := by
  refine ⟨?_, ?_, ?_, ?_, ?_, ?_, rfl⟩ <;>
    simp [ResolveInt, ResolveFloat64, ResolveBool]

/-- Claim C8: `Default` wraps a `bool`, `int` or `string` as a present
candidate carrying its canonical text and leaves the context untouched;
`nil` and every other dynamic type (`int64` and `float64` included) yield
an absent candidate, again with no error appended. -/
theorem default_wraps (c : Config) (b : Bool) (n : Int) (s tn r : String) :
    Default c (.gBool b) = (some (if b then "true" else "false"), c) ∧
    Default c (.gInt n) = (some (Int.repr n), c) ∧
    Default c (.gString s) = (some s, c) ∧
    Default c .gNil = (none, c) ∧
    Default c (.gInt64 n) = (none, c) ∧
    Default c (.gFloat64 r) = (none, c) ∧
    Default c (.gOther tn) = (none, c) :=
  ⟨rfl, rfl, rfl, rfl, rfl, rfl, rfl⟩

/-- Claim C4: integer coercion of a text with a decimal point parses it
as floating point and truncates toward zero — `"2.612"` resolves to `2`,
`"2.7"` to `2` (not the rounded `3`), `"-2.7"` to `-2`; texts without a
decimal point are parsed with the standard `0x`/`0o`/`0b`/leading-`0`
prefixes or as plain decimal. The final conjunct characterizes the
truncation as floor division of the magnitude, with the sign reattached
(truncation toward zero, never rounding). -/
theorem int_coercion_truncates (c : Config) (rest : List (Option String))
    (m : Int) (k : Nat) :
    ResolveInt c (some "2.612" :: rest) = (2, c) ∧
    ResolveInt c (some "2.7" :: rest) = (2, c) ∧
    ResolveInt c (some "-2.7" :: rest) = (-2, c) ∧
    ResolveInt c (some "0x2f" :: rest) = (47, c) ∧
    ResolveInt c (some "0o17" :: rest) = (15, c) ∧
    ResolveInt c (some "0b101" :: rest) = (5, c) ∧
    ResolveInt c (some "017" :: rest) = (15, c) ∧
    ResolveInt c (some "42" :: rest) = (42, c) ∧
    truncToInt ⟨m, -(k : Int)⟩ =
      (if 0 ≤ m then ((m.natAbs / 10 ^ k : Nat) : Int)
       else -((m.natAbs / 10 ^ k : Nat) : Int)) := by
  refine ⟨?_, ?_, ?_, ?_, ?_, ?_, ?_, ?_, ?_⟩
  · simp [ResolveInt]; rw [(by decide : coerceInt "2.612" = some 2)]
  · simp [ResolveInt]; rw [(by decide : coerceInt "2.7" = some 2)]
  · simp [ResolveInt]; rw [(by decide : coerceInt "-2.7" = some (-2))]
  · simp [ResolveInt]; rw [(by decide : coerceInt "0x2f" = some 47)]
  · simp [ResolveInt]; rw [(by decide : coerceInt "0o17" = some 15)]
  · simp [ResolveInt]; rw [(by decide : coerceInt "0b101" = some 5)]
  · simp [ResolveInt]; rw [(by decide : coerceInt "017" = some 15)]
  · simp [ResolveInt]; rw [(by decide : coerceInt "42" = some 42)]
  · rcases Nat.eq_zero_or_pos k with hk | hk
    · subst hk
      simp only [truncToInt, Nat.cast_zero, neg_zero, le_refl, if_true]
      rcases m with a | a
      · simp
      · simp [Int.natAbs, Int.negSucc_eq]
        rw [if_neg (by omega)]
    · have he : ¬(0 : Int) ≤ -(k : Int) := by omega
      simp only [truncToInt, he, if_false]
      have hcast : ((10 : Int) ^ (- -(k : Int)).toNat) = ((10 ^ k : Nat) : Int) := by
        simp
      rw [hcast]
      rcases m with a | a
      · simp [Int.tdiv, Int.natAbs]
      · simp [Int.tdiv, Int.natAbs]

/-- Claim C1 counterexample: `ResolveInt` on the candidates
`[present "a", present "2"]` does fall through — the coercion of `"a"`
fails, an error is appended, and the walk continues to `"2"`, returning
`2` rather than the zero value `0` the claim requires after a coercion
failure at the first present candidate. (This matches the repository's
own test expecting `2` with one accumulated error.) -/
theorem resolveInt_falls_through_cex :
    (ResolveInt (New "app") [some "a", some "2"]).1 = 2 ∧
    (ResolveInt (New "app") [some "a", some "2"]).1 ≠ 0 ∧
    (ResolveInt (New "app") [some "a", some "2"]).2.Errors =
      [.unrecognizedNumeric "a"] := by
  decide

/-- Claim C1 amended: `ResolveString` stops at the first present
candidate unconditionally, and `ResolveBool` stops at the first present
non-empty candidate even when boolean coercion fails (returning `false`
plus an error); but `ResolveInt` and `ResolveFloat64` stop only at the
first present non-empty candidate whose coercion succeeds — on a coercion
failure they append an error for that candidate and fall through to the
remaining candidates. -/
theorem resolvers_walk (c : Config) (s : String) (rest : List (Option String)) :
    ResolveString c (some s :: rest) = (s, c) ∧
    (∀ b, s ≠ "" → stringToBool c s = (b, true) →
      ResolveBool c (some s :: rest) = (b, c)) ∧
    (s ≠ "" → (stringToBool c s).2 = false →
      ResolveBool c (some s :: rest) = (false, addError c (.unrecognizedBool s))) ∧
    (∀ v, s ≠ "" → coerceInt s = some v →
      ResolveInt c (some s :: rest) = (v, c)) ∧
    (s ≠ "" → coerceInt s = none →
      ResolveInt c (some s :: rest) =
        ResolveInt (addError c (.unrecognizedNumeric s)) rest) ∧
    (∀ d, s ≠ "" → goParseFloat s = some d →
      ResolveFloat64 c (some s :: rest) = (d, c)) ∧
    (s ≠ "" → goParseFloat s = none →
      ResolveFloat64 c (some s :: rest) =
        ResolveFloat64 (addError c (.unrecognizedNumeric s)) rest) := by
  refine ⟨rfl, ?_, ?_, ?_, ?_, ?_, ?_⟩
  · intro b hs hb
    simp [ResolveBool, hs, hb]
  · intro hs hb
    have hfst : stringToBool c s = (false, false) := by
      by_cases h1 : ∃ x ∈ c.TrueStrings, eqFold (trimSpace s.data) x.data = true
      · simp [stringToBool, h1] at hb
      · by_cases h2 : ∃ x ∈ c.FalseStrings, eqFold (trimSpace s.data) x.data = true
        · simp [stringToBool, h1, h2] at hb
        · simp [stringToBool, h1, h2]
    simp [ResolveBool, hs, hfst]
  · intro v hs hv
    simp [ResolveInt, hs, hv]
  · intro hs hv
    simp [ResolveInt, hs, hv]
  · intro d hs hd
    simp [ResolveFloat64, hs, hd]
  · intro hs hd
    simp [ResolveFloat64, hs, hd]

/-- Claim C1 amended, witness: each clause applied at a concrete
candidate list. -/
theorem resolvers_walk_wit :
    ResolveString (New "app") [some "x", some "y"] = ("x", New "app") ∧
    ResolveBool (New "app") [some "true", some "false"] = (true, New "app") ∧
    ResolveBool (New "app") [some "maybe", some "true"] =
      (false, addError (New "app") (.unrecognizedBool "maybe")) ∧
    ResolveInt (New "app") [some "2", some "3"] = (2, New "app") ∧
    ResolveInt (New "app") [some "a", some "2"] =
      ResolveInt (addError (New "app") (.unrecognizedNumeric "a")) [some "2"] ∧
    ResolveFloat64 (New "app") [some "1.5", some "2"] = (⟨15, -1⟩, New "app") ∧
    ResolveFloat64 (New "app") [some "b", some "1.5"] =
      ResolveFloat64 (addError (New "app") (.unrecognizedNumeric "b")) [some "1.5"] :=
  ⟨(resolvers_walk (New "app") "x" [some "y"]).1,
   (resolvers_walk (New "app") "true" [some "false"]).2.1 true (by decide) (by decide),
   (resolvers_walk (New "app") "maybe" [some "true"]).2.2.1 (by decide) (by decide),
   (resolvers_walk (New "app") "2" [some "3"]).2.2.2.1 2 (by decide) (by decide),
   (resolvers_walk (New "app") "a" [some "2"]).2.2.2.2.1 (by decide) (by decide),
   (resolvers_walk (New "app") "1.5" [some "2"]).2.2.2.2.2.1 ⟨15, -1⟩ (by decide) (by decide),
   (resolvers_walk (New "app") "b" [some "1.5"]).2.2.2.2.2.2 (by decide) (by decide)⟩

/-- Claim C7 counterexample: `ResolveInt` on a present empty-string
candidate appends no coercion error at all — the candidate is skipped
silently and the walk continues (here resolving to `7` with the error
list still empty); alone in the list, the only error recorded is the
"missing default" exhaustion error, not a coercion error for the
candidate. -/
theorem resolveInt_empty_candidate_cex :
    ResolveInt (New "app") [some "", some "7"] = (7, New "app") ∧
    (ResolveInt (New "app") [some "", some "7"]).2.Errors = [] ∧
    (ResolveInt (New "app") [some ""]).2.Errors = [.missingDefault "int"] := by
  decide

/-- Claim C7 amended: an empty present candidate is not a coercion error —
it is skipped exactly as if absent; a parse failure of a present
non-empty candidate is a coercion error, appended to the context's error
list for that candidate. -/
theorem int_coercion_error_on_parse_failure (c : Config) (s : String)
    (rest : List (Option String)) :
    ResolveInt c (some "" :: rest) = ResolveInt c rest ∧
    (s ≠ "" → coerceInt s = none →
      GoError.unrecognizedNumeric s ∈ (ResolveInt c (some s :: rest)).2.Errors) := by
  refine ⟨by simp [ResolveInt], ?_⟩
  intro hs hv
  have hstep : ResolveInt c (some s :: rest) =
      ResolveInt (addError c (.unrecognizedNumeric s)) rest := by
    simp [ResolveInt, hs, hv]
  rw [hstep]
  obtain ⟨t, ht⟩ := resolveInt_errors_extend rest (addError c (.unrecognizedNumeric s))
  rw [ht]
  simp [addError]

/-- Claim C7 amended, witness: the skipped empty candidate and the
coercion error for the unparsable `"a"`. -/
theorem int_coercion_error_on_parse_failure_wit :
    ResolveInt (New "app") [some "", some "7"] = ResolveInt (New "app") [some "7"] ∧
    GoError.unrecognizedNumeric "a" ∈
      (ResolveInt (New "app") [some "a", some "2"]).2.Errors :=
  ⟨(int_coercion_error_on_parse_failure (New "app") "a" [some "7"]).1,
   (int_coercion_error_on_parse_failure (New "app") "a" [some "2"]).2
     (by decide) (by decide)⟩

/-- Claim C2 counterexample: with the backing file mapping `"k"` to a
value of unsupported dynamic type, `FromFile` does append the
"unexpected data type" error, but it returns a present candidate carrying
`""` — not absent (`nil`) as the claim states. -/
theorem fromFile_unsupported_type_cex :
    (FromFile cBadTree "k").1 = some "" ∧
    (FromFile cBadTree "k").1 ≠ none ∧
    (FromFile cBadTree "k").2.Errors = [.unexpectedDataType "time.Time"] := by
  decide

/-- Claim C2 amended: for a key whose value in the backing file has an
unsupported native type, `FromFile` appends an "unexpected data type"
error to the context's error list and returns a present candidate
carrying the empty string (not absent). -/
theorem fromFile_unsupported_type (c : Config) (tree : List (String × GoValue))
    (key tn : String) (hc : c.fileData = some tree) :
    (List.lookup key tree = some (.gOther tn) →
      FromFile c key = (some "", addError c (.unexpectedDataType tn))) ∧
    (List.lookup key tree = some .gNil →
      FromFile c key = (some "", addError c (.unexpectedDataType "<nil>"))) := by
  constructor <;> intro h <;> simp [FromFile, hc, h, Config.toString]

/-- Claim C2 amended, witness: the unsupported `time.Time` entry under
`"k"`. -/
theorem fromFile_unsupported_type_wit :
    FromFile cBadTree "k" = (some "", addError cBadTree (.unexpectedDataType "time.Time")) :=
  (fromFile_unsupported_type cBadTree [("k", .gOther "time.Time")] "k" "time.Time"
    rfl).1 (by decide)

/-- Claim C6: `stringToBool` trims surrounding whitespace and compares
case-insensitively against `TrueStrings` and then `FalseStrings`; the
first match wins (a trimmed text matching both sets yields `true`), and a
text matching neither yields `(false, ok := false)` — `stringToBool` only
reads the context, so no error is appended by it. The concrete conjuncts
exercise the trimming, the case folding, and the both-sets precedence
(the default context has `TrueStrings = ["true"]`). -/
theorem stringToBool_spec (c : Config) (s : String) :
    (∀ t ∈ c.TrueStrings, eqFold (trimSpace s.data) t.data = true →
      stringToBool c s = (true, true)) ∧
    ((∀ t ∈ c.TrueStrings, eqFold (trimSpace s.data) t.data = false) →
      ∀ f ∈ c.FalseStrings, eqFold (trimSpace s.data) f.data = true →
      stringToBool c s = (false, true)) ∧
    ((∀ t ∈ c.TrueStrings, eqFold (trimSpace s.data) t.data = false) →
      (∀ f ∈ c.FalseStrings, eqFold (trimSpace s.data) f.data = false) →
      stringToBool c s = (false, false)) ∧
    stringToBool (New "app") " TRUE " = (true, true) ∧
    stringToBool (New "app") "True" = (true, true) ∧
    stringToBool (New "app") "true" = (true, true) ∧
    stringToBool
      { New "app" with TrueStrings := ["both"], FalseStrings := ["both"] }
      "Both" = (true, true) ∧
    stringToBool (New "app") "maybe" = (false, false) := by
  refine ⟨?_, ?_, ?_, by decide, by decide, by decide, by decide, by decide⟩
  · intro t ht he
    have h1 : ∃ x ∈ c.TrueStrings, eqFold (trimSpace s.data) x.data = true :=
      ⟨t, ht, he⟩
    simp [stringToBool, h1]
  · intro hT f hf hef
    have h1 : ¬∃ x ∈ c.TrueStrings, eqFold (trimSpace s.data) x.data = true := by
      rintro ⟨x, hx, hex⟩
      rw [hT x hx] at hex
      simp at hex
    have h2 : ∃ x ∈ c.FalseStrings, eqFold (trimSpace s.data) x.data = true :=
      ⟨f, hf, hef⟩
    simp [stringToBool, h1, h2]
  · intro hT hF
    have h1 : ¬∃ x ∈ c.TrueStrings, eqFold (trimSpace s.data) x.data = true := by
      rintro ⟨x, hx, hex⟩
      rw [hT x hx] at hex
      simp at hex
    have h2 : ¬∃ x ∈ c.FalseStrings, eqFold (trimSpace s.data) x.data = true := by
      rintro ⟨x, hx, hex⟩
      rw [hF x hx] at hex
      simp at hex
    simp [stringToBool, h1, h2]

/-- Claim C6 witness: the set-based clauses applied at concrete contexts
and inputs (`" y "` against `TrueStrings = ["Y"]`; `"No"` against
`FalseStrings = ["no"]`; `"maybe"` matching neither). -/
theorem stringToBool_spec_wit :
    stringToBool { New "app" with TrueStrings := ["Y"] } " y " = (true, true) ∧
    stringToBool { New "app" with TrueStrings := ["y"], FalseStrings := ["no"] }
      "No" = (false, true) ∧
    stringToBool (New "app") "maybe" = (false, false) :=
  ⟨(stringToBool_spec { New "app" with TrueStrings := ["Y"] } " y ").1
      "Y" (by decide) (by decide),
   (stringToBool_spec { New "app" with TrueStrings := ["y"], FalseStrings := ["no"] }
      "No").2.1 (by decide) "no" (by decide) (by decide),
   (stringToBool_spec (New "app") "maybe").2.2.1 (by decide) (by decide)⟩

/-- The returned state and counters of the lazy `FromFile` come from its
embedded `loadTOML` call: `loadAttempted` is the loader's, and the
counters pass through the lookup unchanged. -/
theorem lazyFromFile_parts (fs : FS) (c : Config) (key : String) :
    (lazyFromFile fs c key).2.1.loadAttempted = (loadTOML fs c).1.loadAttempted ∧
    (lazyFromFile fs c key).2.2 = (loadTOML fs c).2 := by
  unfold lazyFromFile
  rcases hL : loadTOML fs c with ⟨c1, o, pr⟩
  dsimp only
  constructor
  · split
    · rfl
    · split
      · rfl
      · rename_i v heq
        have hT := toString_preserves_loadAttempted c1 v
        rcases hQ : Config.toString c1 v with ⟨x, c2⟩
        rw [hQ] at hT
        exact hT
  · split
    · rfl
    · split
      · rfl
      · rename_i v heq
        rcases hQ : Config.toString c1 v with ⟨x, c2⟩
        rfl

/-- If the context has already attempted a load, the lazy `FromFile`
touches the filesystem and the parser zero times. -/
theorem lazyFromFile_no_reopen (fs : FS) (c : Config) (key : String)
    (h : c.loadAttempted = true) :
    (lazyFromFile fs c key).2.2 = (0, 0) := by
  rw [(lazyFromFile_parts fs c key).2, loadTOML_already_attempted fs c h]

/-- Claim C5: the lazy discover-and-load sequence runs at most once per
context. Any lazy `FromFile` call leaves the load-attempted flag set; once
the flag is set, `loadTOML` touches nothing and changes nothing; a single
call opens and parses at most once (and, when the path resolves, the first
un-attempted call performs exactly one open); any call made after a
previous `FromFile` call performs zero opens and zero parses; and after an
attempt that left no backing structure, a lookup returns absent with the
state unchanged and no filesystem activity. -/
theorem lazy_load_at_most_once (fs : FS) (c : Config) (key key2 : String) :
    (lazyFromFile fs c key).2.1.loadAttempted = true ∧
    (c.loadAttempted = true → loadTOML fs c = (c, 0, 0)) ∧
    ((lazyFromFile fs c key).2.2.1 ≤ 1 ∧ (lazyFromFile fs c key).2.2.2 ≤ 1) ∧
    (c.loadAttempted = false → ∀ p, fs.prefsName = .ok p →
      (lazyFromFile fs c key).2.2.1 = 1) ∧
    (lazyFromFile fs ((lazyFromFile fs c key).2.1) key2).2.2 = (0, 0) ∧
    (c.loadAttempted = true → c.fileData = none →
      lazyFromFile fs c key = (none, c, 0, 0)) := by
  have hA : (lazyFromFile fs c key).2.1.loadAttempted = true := by
    rw [(lazyFromFile_parts fs c key).1]
    exact loadTOML_attempted fs c
  refine ⟨hA, fun h => loadTOML_already_attempted fs c h, ?_, ?_, ?_, ?_⟩
  · rw [(lazyFromFile_parts fs c key).2]
    exact loadTOML_counters fs c
  · intro h p hp
    have h1 : (loadTOML fs c).2.1 = 1 := by
      unfold loadTOML
      rw [h, hp]
      simp only [Bool.false_eq_true, if_false]
      split
      · rfl
      · split <;> rfl
    have h2 := congrArg Prod.fst (lazyFromFile_parts fs c key).2
    simp only at h2
    rw [h2, h1]
  · exact lazyFromFile_no_reopen fs _ key2 hA
  · intro h hf
    unfold lazyFromFile
    rw [loadTOML_already_attempted fs c h]
    simp [hf]

/-- Claim C5 witness: applied to an all-succeeding filesystem oracle; the
already-attempted context discharges the flag hypotheses, and a fresh
context discharges the exactly-one-open clause. -/
theorem lazy_load_at_most_once_wit :
    (lazyFromFile fsOk cAttempted "k").2.1.loadAttempted = true ∧
    loadTOML fsOk cAttempted = (cAttempted, 0, 0) ∧
    (lazyFromFile fsOk ((lazyFromFile fsOk cAttempted "k").2.1) "k2").2.2 = (0, 0) ∧
    lazyFromFile fsOk cAttempted "k" = (none, cAttempted, 0, 0) ∧
    (lazyFromFile fsOk (New "app") "k").2.2.1 = 1 := by
  have h1 := lazy_load_at_most_once fsOk cAttempted "k" "k2"
  have h2 := lazy_load_at_most_once fsOk (New "app") "k" "k2"
  exact ⟨h1.1, h1.2.1 rfl, h1.2.2.2.2.1, h1.2.2.2.2.2 rfl rfl,
    h2.2.2.2.1 rfl "p" rfl⟩

/-- Claim C9 counterexample: when `os.Open` fails during the lazy load,
the failure is appended to the `Warnings` list, not to the context's
error list — `Errors` stays empty, so this failure is not visible in the
accumulated error list the claim points the caller at. -/
theorem open_failure_not_in_errors_cex :
    (loadTOML fsOpenFail (New "app")).1.Errors = [] ∧
    (loadTOML fsOpenFail (New "app")).1.Warnings =
      [.osError "open p: no such file or directory"] ∧
    (loadTOML fsOpenFail (New "app")).1.fileData = none := by
  decide

/-- Claim C9 amended: every provider and resolver failure is non-fatal
and recorded in one of the context's two accumulated lists while a
zero/empty/absent value is returned — but a failed `os.Open` during the
lazy load is appended to the `Warnings` list rather than the `Errors`
list (and `tomlError` likewise routes `"locate"`-stage failures to
`Warnings`); all other failures go to the `Errors` list: path
resolution, parse (whether or not the deferred close then also fails),
a failing close after a successful parse, coercion failures of every
typed resolver, and exhaustion, each alongside the zero/absent value
returned. -/
theorem failures_recorded (fs : FS) (c : Config) (key : String)
    (h : c.loadAttempted = false) :
    (∀ e, fs.prefsName = .error e →
      loadTOML fs c =
        ({ c with loadAttempted := true, Errors := c.Errors ++ [e] }, 0, 0)) ∧
    (∀ p e, fs.prefsName = .ok p → fs.openFile p = .error e →
      loadTOML fs c =
        ({ c with loadAttempted := true, Warnings := c.Warnings ++ [e] }, 1, 0)) ∧
    (∀ p e, fs.prefsName = .ok p → fs.openFile p = .ok () →
      fs.parseFile p = .error e →
      (fs.closeOutcome p = none →
        loadTOML fs c =
          ({ c with loadAttempted := true, Errors := c.Errors ++ [e] }, 1, 1)) ∧
      (∀ ce, fs.closeOutcome p = some ce →
        loadTOML fs c =
          ({ c with loadAttempted := true, Errors := c.Errors ++ [e, ce] }, 1, 1))) ∧
    (∀ p tree ce, fs.prefsName = .ok p → fs.openFile p = .ok () →
      fs.parseFile p = .ok tree → fs.closeOutcome p = some ce →
      loadTOML fs c =
        ({ c with
            loadAttempted := true
            fileData := some tree
            PrefsFile := p
            Errors := c.Errors ++ [ce] }, 1, 1)) ∧
    (∀ e, fs.prefsName = .error e → c.fileData = none →
      lazyFromFile fs c key =
        (none, { c with loadAttempted := true, Errors := c.Errors ++ [e] }, 0, 0)) ∧
    (∀ fn st m, st ≠ "locate" →
      tomlError c fn st m = addError c (.tomlStageError st fn m)) ∧
    (∀ fn m, tomlError c fn "locate" m =
      addWarning c (.tomlStageError "locate" fn m)) ∧
    (∀ s rest, s ≠ "" → coerceInt s = none →
      GoError.unrecognizedNumeric s ∈ (ResolveInt c (some s :: rest)).2.Errors) ∧
    (∀ s rest, s ≠ "" → goParseFloat s = none →
      GoError.unrecognizedNumeric s ∈ (ResolveFloat64 c (some s :: rest)).2.Errors) ∧
    (∀ s rest, s ≠ "" → (stringToBool c s).2 = false →
      ResolveBool c (some s :: rest) = (false, addError c (.unrecognizedBool s))) ∧
    (∀ l, (∀ x ∈ l, x = none) →
      (ResolveString c l).1 = "" ∧ (ResolveInt c l).1 = 0 ∧
      (ResolveFloat64 c l).1 = ⟨0, 0⟩ ∧ (ResolveBool c l).1 = false ∧
      (ResolveString c l).2.Errors = c.Errors ++ [.missingDefault "string"] ∧
      (ResolveInt c l).2.Errors = c.Errors ++ [.missingDefault "int"] ∧
      (ResolveFloat64 c l).2.Errors = c.Errors ++ [.missingDefault "int"] ∧
      (ResolveBool c l).2.Errors = c.Errors ++ [.missingDefault "bool"]) := by
  have hpre : ∀ e, fs.prefsName = .error e →
      loadTOML fs c =
        ({ c with loadAttempted := true, Errors := c.Errors ++ [e] }, 0, 0) := by
    intro e he
    unfold loadTOML
    rw [h, he]
    rfl
  refine ⟨hpre, ?_, ?_, ?_, ?_, ?_, ?_, ?_, ?_, ?_, ?_⟩
  · intro p e hp ho
    simp only [loadTOML, h, hp, ho, Bool.false_eq_true, if_false]
    rfl
  · intro p e hp ho hpe
    constructor
    · intro hcl
      simp only [loadTOML, h, hp, ho, hpe, Bool.false_eq_true, if_false, goClose, hcl]
      rfl
    · intro ce hcl
      simp only [loadTOML, h, hp, ho, hpe, Bool.false_eq_true, if_false, goClose, hcl]
      simp [addError]
  · intro p tree ce hp ho hpe hcl
    simp only [loadTOML, h, hp, ho, hpe, Bool.false_eq_true, if_false, goClose, hcl]
    rfl
  · intro e he hf
    unfold lazyFromFile
    rw [hpre e he]
    simp [hf]
  · intro fn st m hst
    simp [tomlError, hst]
  · intro fn m
    simp [tomlError]
  · intro s rest hs hv
    have hstep : ResolveInt c (some s :: rest) =
        ResolveInt (addError c (.unrecognizedNumeric s)) rest := by
      simp [ResolveInt, hs, hv]
    rw [hstep]
    obtain ⟨t, ht⟩ := resolveInt_errors_extend rest (addError c (.unrecognizedNumeric s))
    rw [ht]
    simp [addError]
  · intro s rest hs hv
    have hstep : ResolveFloat64 c (some s :: rest) =
        ResolveFloat64 (addError c (.unrecognizedNumeric s)) rest := by
      simp [ResolveFloat64, hs, hv]
    rw [hstep]
    obtain ⟨t, ht⟩ := resolveFloat_errors_extend rest (addError c (.unrecognizedNumeric s))
    rw [ht]
    simp [addError]
  · intro s rest hs hb
    have hfst := stringToBool_no_match c s hb
    simp [ResolveBool, hs, hfst]
  · intro l hall
    obtain ⟨h1, h2, h3, h4⟩ := all_absent_aux l c hall
    refine ⟨?_, ?_, ?_, ?_, ?_, ?_, ?_, ?_⟩ <;> simp [h1, h2, h3, h4, addError]

/-- Claim C9 amended, witness: the open-failure oracle routes its failure
to `Warnings`; parse and close failures (in both close outcomes) land in
`Errors`; `tomlError` routes a `"parse"` stage to `Errors` and the
`"locate"` stage to `Warnings`; and the coercion and exhaustion clauses
are exercised on concrete candidates. -/
theorem failures_recorded_wit :
    loadTOML fsOpenFail (New "app") =
      ({ New "app" with
          loadAttempted := true
          Warnings := [.osError "open p: no such file or directory"] }, 1, 0) ∧
    loadTOML fsParseCloseFail (New "app") =
      ({ New "app" with
          loadAttempted := true
          Errors := [.parseError "bad toml", .closeError "close failed"] }, 1, 1) ∧
    loadTOML fsCloseFail (New "app") =
      ({ New "app" with
          loadAttempted := true
          fileData := some [("alpha", .gString "v")]
          PrefsFile := "p"
          Errors := [.closeError "close failed"] }, 1, 1) ∧
    tomlError (New "app") "f" "parse" "m" =
      addError (New "app") (.tomlStageError "parse" "f" "m") ∧
    tomlError (New "app") "f" "locate" "m" =
      addWarning (New "app") (.tomlStageError "locate" "f" "m") ∧
    GoError.unrecognizedNumeric "a" ∈
      (ResolveInt (New "app") [some "a", some "2"]).2.Errors ∧
    GoError.unrecognizedNumeric "b" ∈
      (ResolveFloat64 (New "app") [some "b"]).2.Errors ∧
    ResolveBool (New "app") [some "maybe"] =
      (false, addError (New "app") (.unrecognizedBool "maybe")) ∧
    (ResolveInt (New "app") [none]).1 = 0 ∧
    (ResolveInt (New "app") [none]).2.Errors = [.missingDefault "int"] := by
  have h1 := failures_recorded fsOpenFail (New "app") "k" rfl
  have h2 := failures_recorded fsParseCloseFail (New "app") "k" rfl
  have h3 := failures_recorded fsCloseFail (New "app") "k" rfl
  exact ⟨h1.2.1 "p" (.osError "open p: no such file or directory") rfl rfl,
    (h2.2.2.1 "p" (.parseError "bad toml") rfl rfl rfl).2 (.closeError "close failed") rfl,
    h3.2.2.2.1 "p" [("alpha", .gString "v")] (.closeError "close failed") rfl rfl rfl rfl,
    h1.2.2.2.2.2.1 "f" "parse" "m" (by decide),
    h1.2.2.2.2.2.2.1 "f" "m",
    h1.2.2.2.2.2.2.2.1 "a" [some "2"] (by decide) (by decide),
    h1.2.2.2.2.2.2.2.2.1 "b" [] (by decide) (by decide),
    h1.2.2.2.2.2.2.2.2.2.1 "maybe" [] (by decide) (by decide),
    (h1.2.2.2.2.2.2.2.2.2.2 [none] (by decide)).2.1,
    (h1.2.2.2.2.2.2.2.2.2.2 [none] (by decide)).2.2.2.2.2.1⟩


end ConfigGo
